import Mathlib

/-!
# Verification of the diary dashboard (`app.py`)

Shallow embedding of the data-and-control core of the diary dashboard:
column-name normalization, status scoring, today filtering, the daily
trend aggregation, the save-to-sheet writer, the FULL_RW loader branch
and the export snapshot.  Tables are modelled as a header list plus a
list of rows of text cells; Python string helpers (`strip`, `lower`,
substring test, integer reading) are re-implemented structurally over
`List Char` so that every definition evaluates by kernel reduction.
-/

/-! ## Python string helpers over `List Char` -/

/-- Model of Python `str.strip` whitespace test (ASCII whitespace). -/
def isWsChar (c : Char) : Bool :=
  c.toNat = 32 || c.toNat = 9 || c.toNat = 10 || c.toNat = 13 || c.toNat = 11 || c.toNat = 12

def dropLeadWs : List Char → List Char
  | [] => []
  | c :: t => if isWsChar c then dropLeadWs t else c :: t

/-- Model of Python `str.strip`: drop leading and trailing whitespace. -/
def stripChars (l : List Char) : List Char :=
  (dropLeadWs ((dropLeadWs l).reverse)).reverse

/-- Model of Python `str.lower` on one character (ASCII letters). -/
def lowChar (c : Char) : Char :=
  if 65 ≤ c.toNat ∧ c.toNat ≤ 90 then Char.ofNat (c.toNat + 32) else c

def leadsWith : List Char → List Char → Bool
  | [], _ => true
  | _ :: _, [] => false
  | a :: as, b :: bs => a == b && leadsWith as bs

/-- Model of the Python substring test `needle in hay`. -/
def hasSub (n : List Char) : List Char → Bool
  | [] => n.isEmpty
  | c :: t => leadsWith n (c :: t) || hasSub n t

/-- The value `c.strip().lower()` of a header name, as in the `col_map` loop. -/
def lowStrip (s : String) : List Char :=
  stripChars (s.data.map lowChar)

/-- The Python fragment test `frag in c.strip().lower()`. -/
def containsFrag (frag : String) (c : String) : Bool :=
  hasSub frag.data (lowStrip c)

/-! ## Tables -/

/-- A pandas `DataFrame` of text cells: header names plus rows. -/
structure DataFrame where
  cols : List String
  rows : List (List String)
deriving DecidableEq

def emptyDf : DataFrame := ⟨[], []⟩

/-- Pandas `df.empty`: some axis has length zero. -/
def dfEmpty (df : DataFrame) : Bool :=
  df.rows.isEmpty || df.cols.isEmpty

/-- First index of a header name (Python `list.index`, for present names). -/
def hdrIdx : List String → String → Nat
  | [], _ => 0
  | h :: hs, k => if h = k then 0 else hdrIdx hs k + 1

/-- The cell column of `df[c]` (first matching header), one value per row. -/
def colValues (df : DataFrame) (c : String) : List String :=
  if c ∈ df.cols then df.rows.map (fun r => r.getD (hdrIdx df.cols c) "") else []

/-! ## Normalizer (`col_map` / `expected_cols`, app.py lines 103-123) -/

def expected_cols : List String :=
  ["Data", "Giorno", "Ora", "Attività", "Materia", "Tipo", "Stato", "Punteggio", "Note"]

/-- The `if/elif` fragment chain of the `col_map` loop. -/
def canonOf (c : String) : Option String :=
  if containsFrag "data" c then some "Data"
  else if containsFrag "gior" c then some "Giorno"
  else if containsFrag "ora" c then some "Ora"
  else if containsFrag "attiv" c then some "Attività"
  else if containsFrag "mater" c then some "Materia"
  else if containsFrag "tipo" c then some "Tipo"
  else if containsFrag "stat" c then some "Stato"
  else if containsFrag "punt" c then some "Punteggio"
  else if containsFrag "note" c then some "Note"
  else none

/-- Python dict assignment `m[k] = v`: overwrite in place or append. -/
def assocSet : List (String × String) → String → String → List (String × String)
  | [], k, v => [(k, v)]
  | (a, b) :: t, k, v => if a = k then (a, v) :: t else (a, b) :: assocSet t k v

/-- Python dict lookup `m.get(k)`. -/
def aLookup : List (String × String) → String → Option String
  | [], _ => none
  | (a, b) :: t, k => if a = k then some b else aLookup t k

def colMapStep (m : List (String × String)) (c : String) : List (String × String) :=
  match canonOf c with
  | some k => assocSet m c k
  | none => m

/-- The `col_map` dict built over the raw header names. -/
def colMapOf (cols : List String) : List (String × String) :=
  cols.foldl colMapStep []

/-- The `col_map` actually built: the building loop runs over no columns
when `df_raw.empty` holds. -/
def colMapGuard (df : DataFrame) : List (String × String) :=
  if dfEmpty df then [] else colMapOf df.cols

/-- The rename `df_raw.rename(columns=col_map)` guarded by `if col_map:`. -/
def renameStep (df : DataFrame) : DataFrame :=
  if (colMapGuard df).isEmpty then df
  else ⟨df.cols.map (fun c => (aLookup (colMapGuard df) c).getD c), df.rows⟩

/-- One step of the guarantee loop: `if c not in df_raw.columns: df_raw[c] = ""`. -/
def addCol (d : DataFrame) (e : String) : DataFrame :=
  if e ∈ d.cols then d else ⟨d.cols ++ [e], d.rows.map (fun r => r ++ [""])⟩

def addMissing (df : DataFrame) : DataFrame :=
  expected_cols.foldl addCol df

/-- Full normalization of `df_raw`: rename matched headers, then materialize
the missing expected columns as empty text. -/
def normalizeDf (df : DataFrame) : DataFrame :=
  addMissing (renameStep df)

/-! ## Scorer (app.py line 127) -/

/-- The `Punteggio_calcolato` lambda: compare the stripped status text with
the three markers, else score 0. -/
def punteggio_calcolato (pc pp pm : Int) (s : String) : Int :=
  if stripChars s.data = "✅".data then pc
  else if stripChars s.data = "⚠️".data then pp
  else if stripChars s.data = "❌".data then pm
  else 0

/-! ## Date parsing and the today filter (app.py lines 146-151) -/

structure Date where
  y : Nat
  m : Nat
  d : Nat
deriving DecidableEq

/-- Encoding of a date as a single number; on in-range dates (`m ≤ 12`,
`d ≤ 31`) the numeric order is the chronological order. -/
def Date.key (x : Date) : Nat := x.y * 512 + x.m * 32 + x.d

def splitDash : List Char → List (List Char)
  | [] => [[]]
  | c :: t =>
    if c.toNat = 45 then [] :: splitDash t
    else
      match splitDash t with
      | [] => [[c]]
      | h :: t2 => (c :: h) :: t2

def digVal (c : Char) : Option Nat :=
  if 48 ≤ c.toNat ∧ c.toNat ≤ 57 then some (c.toNat - 48) else none

def readNatAux : List Char → Nat → Option Nat
  | [], acc => some acc
  | c :: t, acc =>
    match digVal c with
    | some d => readNatAux t (acc * 10 + d)
    | none => none

def readNat (l : List Char) : Option Nat :=
  match l with
  | [] => none
  | _ => readNatAux l 0

/-- Model of the pandas date parser (`pd.to_datetime`) on one ISO-format
text cell: `yyyy-mm-dd` parses, anything else fails. -/
def parseISODate (s : String) : Option Date :=
  match splitDash s.data with
  | [ys, ms, ds] =>
    match readNat ys, readNat ms, readNat ds with
    | some y, some m, some d =>
      if 1 ≤ m ∧ m ≤ 12 ∧ 1 ≤ d ∧ d ≤ 31 then some ⟨y, m, d⟩ else none
    | _, _, _ => none
  | _ => none

/-- One cell under `pd.to_datetime`: blank text coerces to a missing value
(`NaT`), a date parses, other text raises. -/
def parsedCell (s : String) : Except Unit (Option Date) :=
  if s = "" then Except.ok none
  else
    match parseISODate s with
    | some d => Except.ok (some d)
    | none => Except.error ()

/-- The conversion `pd.to_datetime(df["Data"])` over the whole column: any raising cell
makes the whole conversion raise. -/
def parseAll : List String → Except Unit (List (Option Date))
  | [] => Except.ok []
  | c :: t =>
    match parsedCell c, parseAll t with
    | Except.ok v, Except.ok vs => Except.ok (v :: vs)
    | Except.error e, _ => Except.error e
    | _, Except.error e => Except.error e

/-- A `Data_parsed` cell: a parsed date, a missing value, or — after the
fallback `df["Data_parsed"] = df["Data"]` — the raw opaque text. -/
inductive ParsedVal
  | pdate (d : Date)
  | missing
  | text (s : String)
deriving DecidableEq

def parsedValOf : Option Date → ParsedVal
  | some d => ParsedVal.pdate d
  | none => ParsedVal.missing

/-- The `Data_parsed` column: parsed dates when the whole column converts,
otherwise the raw text of every cell (the `except` fallback). -/
def dataParsedOf (cells : List String) : List ParsedVal :=
  match parseAll cells with
  | Except.ok l => l.map parsedValOf
  | Except.error _ => cells.map ParsedVal.text

/-- The filter `oggi_df = df[df["Data_parsed"] == today]`: a `Data_parsed` cell equals
the `datetime.date` value `today` only when it is a parsed date equal to it
(`NaT` and raw text compare unequal to a date). -/
def oggiFilter (df : DataFrame) (today : Date) : List (List String) :=
  let keys := dataParsedOf (colValues df "Data")
  ((df.rows.zip keys).filter (fun p => p.2 = ParsedVal.pdate today)).map Prod.fst

/-! ## Daily trend (app.py lines 197-203) -/

/-- Ordering used for the sorted group keys: `NaT` first, raw text next,
dates last; on parsed dates it is the chronological order via `Date.key`. -/
def pvalLeB : ParsedVal → ParsedVal → Bool
  | ParsedVal.missing, _ => true
  | ParsedVal.text _, ParsedVal.missing => false
  | ParsedVal.text s, ParsedVal.text t => decide (s ≤ t)
  | ParsedVal.text _, ParsedVal.pdate _ => true
  | ParsedVal.pdate _, ParsedVal.missing => false
  | ParsedVal.pdate _, ParsedVal.text _ => false
  | ParsedVal.pdate a, ParsedVal.pdate b => decide (a.key ≤ b.key)

def pvalLe (a b : ParsedVal) : Prop := pvalLeB a b = true

instance pvalLeDecidable : DecidableRel pvalLe :=
  fun a b => inferInstanceAs (Decidable (pvalLeB a b = true))

def dedupFirst (seen : List ParsedVal) : List ParsedVal → List ParsedVal
  | [] => []
  | k :: t => if k ∈ seen then dedupFirst seen t else k :: dedupFirst (k :: seen) t

/-- The distinct group keys of a column, in first-occurrence order. -/
def uniqueKeys (l : List ParsedVal) : List ParsedVal :=
  dedupFirst [] l

/-- The summed `Punteggio_calcolato` of the rows carrying group key `k`. -/
def groupSum (pairs : List (ParsedVal × Int)) (k : ParsedVal) : Int :=
  ((pairs.filter (fun p => p.1 = k)).map Prod.snd).sum

/-- The aggregation `df.groupby("Data_parsed")["Punteggio_calcolato"].sum()` sorted by key:
one `(key, sum)` entry per distinct non-missing key (groupby drops `NaT`). -/
def dailyOf (df : DataFrame) (pc pp pm : Int) : List (ParsedVal × Int) :=
  let keys := dataParsedOf (colValues df "Data")
  let scores := (colValues df "Stato").map (punteggio_calcolato pc pp pm)
  let pairs := keys.zip scores
  let gs := (uniqueKeys keys).filter (fun k => k ≠ ParsedVal.missing)
  (List.insertionSort pvalLe gs).map (fun k => (k, groupSum pairs k))

/-- The branch `if not daily.empty: chart else placeholder`. -/
def showsPlaceholder (df : DataFrame) (pc pp pm : Int) : Bool :=
  (dailyOf df pc pp pm).isEmpty

/-! ## Writer (save handler, app.py lines 163-184) -/

/-- The access `rec.get(k, '')` where the record dict is built from the sheet header
row and one data row. -/
def recGet : List String → List String → String → String
  | [], _, _ => ""
  | _ :: _, [], _ => ""
  | h :: hs, v :: vs, k => if h = k then v else recGet hs vs k

/-- The match condition of the save loop:
`str(rec.get('Data','')) == str(row['Data']) and str(rec.get('Ora','')) == str(row['Ora'])`. -/
def rowMatches (headers : List String) (d o : String) (r : List String) : Bool :=
  recGet headers r "Data" = d ∧ recGet headers r "Ora" = o

/-- The scan `for r_idx, rec in enumerate(all_values, start=2)` with `break`
on first match: the 1-based sheet row of the first matching record. -/
def findRow (headers : List String) (d o : String) : Nat → List (List String) → Option Nat
  | _, [] => none
  | k, r :: rs => if rowMatches headers d o r then some k else findRow headers d o (k + 1) rs

inductive SaveOutcome
  | updated (rowIdx colIdx : Nat) (value : String)
  | notFound
deriving DecidableEq

/-- The patch `ws.update_cell(r_idx, col, value)` on the data rows of a sheet whose
first row is the header: sheet row `r` is data row `r - 2`, sheet column
`c` is cell index `c - 1`. -/
def updateCellRows (rows : List (List String)) (r c : Nat) (v : String) : List (List String) :=
  rows.set (r - 2) ((rows.getD (r - 2) []).set (c - 1) v)

/-- The save handler: scan the remote records for the `(Data, Ora)` key,
patch the `Stato` cell of the first match (column index taken from the
local table's columns), else report that no row was found. -/
def saveStato (headers : List String) (rows : List (List String))
    (dfCols : List String) (d o v : String) : SaveOutcome × List (List String) :=
  match findRow headers d o 2 rows with
  | some i =>
    (SaveOutcome.updated i (hdrIdx dfCols "Stato" + 1) v,
     updateCellRows rows i (hdrIdx dfCols "Stato" + 1) v)
  | none => (SaveOutcome.notFound, rows)

/-- The status selector of a today card:
`st.selectbox("Stato", options=["","✅","⚠️","❌"], index=0)`. -/
def statoOptions : List String := ["", "✅", "⚠️", "❌"]

/-- The selector's initial value: always `options[0]`, ignoring the row's
stored status (the handler reads `row['Stato']` into `state` but never
feeds it back into the widget). -/
def newStateInitial (storedStato : String) : String :=
  let _ := storedStato
  statoOptions.getD 0 ""

/-! ## FULL_RW loader (app.py lines 55-99) -/

/-- A service-account credential file; only its validity matters here. -/
structure Credential where
  valid : Bool
deriving DecidableEq

inductive GsError
  | notAvailable
  | authError
deriving DecidableEq

inductive LoadMsg
  | okMsg
  | infoMsg
  | errMsg (e : GsError)
deriving DecidableEq

/-- The helper `get_gspread_service`: raises if the gspread import failed, then raises
if the credential does not authenticate. -/
def get_gspread_service (gsAvailable : Bool) (cred : Credential) : Except GsError Unit :=
  if !gsAvailable then Except.error GsError.notAvailable
  else if cred.valid then Except.ok () else Except.error GsError.authError

/-- The FULL_RW load branch: without an uploaded credential file show the
info prompt and use an empty table; with one, authenticate and read the
sheet, catching any raised error into an error message plus an empty table. -/
def loadFullRW (gsAvailable : Bool) (gsaFile : Option Credential) (remote : DataFrame) :
    DataFrame × LoadMsg :=
  match gsaFile with
  | none => (emptyDf, LoadMsg.infoMsg)
  | some c =>
    match get_gspread_service gsAvailable c with
    | Except.ok _ => (remote, LoadMsg.okMsg)
    | Except.error e => (emptyDf, LoadMsg.errMsg e)

/-! ## Exporter (app.py lines 209-214) -/

structure ExportFile where
  sheetName : String
  dateFormat : String
  table : DataFrame
deriving DecidableEq

/-- The call `df_raw.to_excel(writer, sheet_name="Sheet1", index=False)` inside
`pd.ExcelWriter(..., datetime_format='yyyy-mm-dd')`. -/
def exportSnapshot (df : DataFrame) : ExportFile :=
  ⟨"Sheet1", "yyyy-mm-dd", df⟩

/-- The export of a freshly loaded raw table: by export time `df_raw` has
already been renamed and had the expected columns appended (lines 117-123),
so the snapshot serializes the normalized table. -/
def pipelineExport (raw : DataFrame) : ExportFile :=
  exportSnapshot (normalizeDf raw)

/-! ## Helper lemmas -/

lemma getD_set_self {α : Type} (l : List α) (i : Nat) (v d : α) (h : i < l.length) :
    (l.set i v).getD i d = v := by
  induction l generalizing i with
  | nil => simp at h
  | cons a t ih =>
    cases i with
    | zero => simp
    | succ n => simpa using ih n (by simpa using h)

lemma getD_set_other {α : Type} (l : List α) (i j : Nat) (v d : α) (h : i ≠ j) :
    (l.set i v).getD j d = l.getD j d := by
  induction l generalizing i j with
  | nil => simp
  | cons a t ih =>
    cases i with
    | zero =>
      cases j with
      | zero => exact absurd rfl h
      | succ m => simp
    | succ n =>
      cases j with
      | zero => simp
      | succ m => simpa using ih n m (by omega)

lemma getD_map_lt {α β : Type} (l : List α) (f : α → β) (i : Nat) (da : α) (db : β)
    (h : i < l.length) : (l.map f).getD i db = f (l.getD i da) := by
  induction l generalizing i with
  | nil => simp at h
  | cons a t ih =>
    cases i with
    | zero => simp
    | succ n => simpa using ih n (by simpa using h)

lemma getD_mem {α : Type} (l : List α) (i : Nat) (d : α) (h : i < l.length) :
    l.getD i d ∈ l := by
  induction l generalizing i with
  | nil => simp at h
  | cons a t ih =>
    cases i with
    | zero => simp
    | succ n => simpa using Or.inr (ih n (by simpa using h))

lemma length_set_eq {α : Type} (l : List α) (i : Nat) (v : α) :
    (l.set i v).length = l.length := by
  simp

/-! ### `findRow` scan lemmas -/

lemma findRow_none_iff (headers : List String) (d o : String) (k : Nat)
    (rs : List (List String)) :
    findRow headers d o k rs = none ↔ ∀ r ∈ rs, rowMatches headers d o r = false := by
  induction rs generalizing k with
  | nil => simp [findRow]
  | cons r t ih =>
    by_cases hm : rowMatches headers d o r
    · simp [findRow, hm]
    · simp only [findRow, Bool.not_eq_true] at hm ⊢
      rw [hm]
      simpa [hm] using ih (k + 1)

lemma findRow_some_spec (headers : List String) (d o : String) (k : Nat)
    (rs : List (List String)) (i : Nat) (h : findRow headers d o k rs = some i) :
    k ≤ i ∧ i - k < rs.length ∧ rowMatches headers d o (rs.getD (i - k) []) = true ∧
      ∀ j < i - k, rowMatches headers d o (rs.getD j []) = false := by
  induction rs generalizing k with
  | nil => simp [findRow] at h
  | cons r t ih =>
    by_cases hm : rowMatches headers d o r
    · simp only [findRow, hm, if_pos, Option.some.injEq] at h
      subst h
      refine ⟨le_refl _, by simp, by simpa [Nat.sub_self] using hm, ?_⟩
      intro j hj
      omega
    · have h2 : findRow headers d o (k + 1) t = some i := by
        simpa [findRow, hm] using h
      obtain ⟨hle, hlt, hmatch, hmin⟩ := ih (k + 1) h2
      have hik : k + 1 ≤ i := hle
      refine ⟨by omega, by simp; omega, ?_, ?_⟩
      · have : i - k = (i - (k + 1)) + 1 := by omega
        rw [this]
        simpa using hmatch
      · intro j hj
        cases j with
        | zero => simpa using (Bool.not_eq_true _).mp hm
        | succ m =>
          have : m < i - (k + 1) := by omega
          simpa using hmin m this

/-! ### Dict (`col_map`) lemmas -/

lemma aLookup_assocSet_self (m : List (String × String)) (k v : String) :
    aLookup (assocSet m k v) k = some v := by
  induction m with
  | nil => simp [assocSet, aLookup]
  | cons p t ih =>
    obtain ⟨a, b⟩ := p
    by_cases hak : a = k
    · simp [assocSet, aLookup, hak]
    · simp [assocSet, aLookup, hak, ih]

lemma aLookup_assocSet_ne (m : List (String × String)) (k v c : String) (h : c ≠ k) :
    aLookup (assocSet m k v) c = aLookup m c := by
  induction m with
  | nil => simp [assocSet, aLookup, Ne.symm h]
  | cons p t ih =>
    obtain ⟨a, b⟩ := p
    by_cases hak : a = k
    · subst hak
      have hca : ¬a = c := fun he => h he.symm
      simp [assocSet, aLookup, hca]
    · simp only [assocSet, if_neg hak, aLookup]
      by_cases hac : a = c
      · simp [hac]
      · simp [hac, ih]

lemma colMap_foldl_lookup (cols : List String) (m : List (String × String)) (c k : String)
    (hk : canonOf c = some k) :
    aLookup (cols.foldl colMapStep m) c = if c ∈ cols then some k else aLookup m c := by
  induction cols generalizing m with
  | nil => simp
  | cons a t ih =>
    by_cases hac : a = c
    · subst hac
      have hstep : colMapStep m a = assocSet m a k := by simp [colMapStep, hk]
      rw [List.foldl_cons, hstep, ih (assocSet m a k)]
      by_cases hmem : a ∈ t
      · simp [hmem]
      · simp [hmem, aLookup_assocSet_self]
    · rw [List.foldl_cons, ih (colMapStep m a)]
      have hstep : aLookup (colMapStep m a) c = aLookup m c := by
        unfold colMapStep
        cases canonOf a with
        | none => rfl
        | some k2 => exact aLookup_assocSet_ne m a k2 c (fun he => hac he.symm)
      have hca : ¬c = a := fun he => hac he.symm
      by_cases hmem : c ∈ t
      · simp [hmem, hca, hstep]
      · simp [hmem, hca, hstep]

/-! ### `addMissing` shape lemma -/

lemma addCol_foldl_eq (es : List String) (hnd : es.Nodup) (df : DataFrame) :
    es.foldl addCol df =
      ⟨df.cols ++ es.filter (fun e => e ∉ df.cols),
       df.rows.map (fun r => r ++ List.replicate (es.filter (fun e => e ∉ df.cols)).length "")⟩ := by
  induction es generalizing df with
  | nil =>
    obtain ⟨cols, rows⟩ := df
    simp
  | cons e t ih =>
    obtain ⟨he, hnd2⟩ := List.nodup_cons.mp hnd
    by_cases hmem : e ∈ df.cols
    · have hstep : addCol df e = df := by simp [addCol, hmem]
      rw [List.foldl_cons, hstep, ih hnd2 df]
      simp [hmem]
    · have hstep : addCol df e = ⟨df.cols ++ [e], df.rows.map (fun r => r ++ [""])⟩ := by
        simp [addCol, hmem]
      rw [List.foldl_cons, hstep, ih hnd2]
      have hfilt : t.filter (fun x => decide (x ∉ df.cols ++ [e])) =
          t.filter (fun x => decide (x ∉ df.cols)) := by
        apply List.filter_congr
        intro x hx
        have hxe : x ≠ e := fun hcon => he (hcon ▸ hx)
        simp [hxe]
      simp only [hfilt]
      congr 1
      · simp [hmem, List.append_assoc]
      · rw [List.map_map]
        apply List.map_congr_left
        intro r _
        simp [hmem, List.append_assoc, List.replicate_succ]

lemma normalizeDf_shape (df : DataFrame) :
    normalizeDf df =
      ⟨(renameStep df).cols ++ expected_cols.filter (fun e => e ∉ (renameStep df).cols),
       (renameStep df).rows.map (fun r =>
         r ++ List.replicate (expected_cols.filter (fun e => e ∉ (renameStep df).cols)).length "")⟩ :=
  addCol_foldl_eq expected_cols (by decide) (renameStep df)

/-! ### Group-key lemmas -/

lemma mem_dedupFirst (seen l : List ParsedVal) (x : ParsedVal) :
    x ∈ dedupFirst seen l ↔ x ∈ l ∧ x ∉ seen := by
  induction l generalizing seen with
  | nil => simp [dedupFirst]
  | cons k t ih =>
    by_cases hk : k ∈ seen
    · rw [dedupFirst, if_pos hk, ih]
      constructor
      · rintro ⟨hx, hs⟩
        exact ⟨List.mem_cons_of_mem _ hx, hs⟩
      · rintro ⟨hx, hs⟩
        rcases List.mem_cons.mp hx with hx1 | hx1
        · subst hx1
          exact absurd hk hs
        · exact ⟨hx1, hs⟩
    · rw [dedupFirst, if_neg hk]
      constructor
      · intro hm
        rcases List.mem_cons.mp hm with hx1 | hx1
        · subst hx1
          exact ⟨List.mem_cons_self _ _, hk⟩
        · obtain ⟨hx, hs⟩ := (ih (k :: seen)).mp hx1
          exact ⟨List.mem_cons_of_mem _ hx, fun hc => hs (List.mem_cons_of_mem _ hc)⟩
      · rintro ⟨hx, hs⟩
        by_cases hxk : x = k
        · subst hxk
          exact List.mem_cons_self _ _
        · have hx1 : x ∈ t := by
            rcases List.mem_cons.mp hx with h1 | h1
            · exact absurd h1 hxk
            · exact h1
          refine List.mem_cons_of_mem _ ((ih (k :: seen)).mpr ⟨hx1, fun hc => ?_⟩)
          rcases List.mem_cons.mp hc with h1 | h1
          · exact hxk h1
          · exact hs h1

lemma mem_uniqueKeys (l : List ParsedVal) (x : ParsedVal) :
    x ∈ uniqueKeys l ↔ x ∈ l := by
  simpa using mem_dedupFirst [] l x

/-! ### Order instances for the sorted group keys -/

lemma pvalLe_total (a b : ParsedVal) : pvalLe a b ∨ pvalLe b a := by
  cases a <;> cases b <;>
    simp only [pvalLe, pvalLeB, decide_eq_true_eq] <;>
    first
      | exact Or.inl trivial
      | exact Or.inr trivial
      | exact le_total _ _

set_option maxRecDepth 4000

lemma pvalLe_trans (a b c : ParsedVal) (hab : pvalLe a b) (hbc : pvalLe b c) : pvalLe a c := by
  cases a <;> cases b <;> cases c <;>
    simp only [pvalLe, pvalLeB, decide_eq_true_eq] at hab hbc ⊢ <;>
    first
      | trivial
      | exact le_trans hab hbc

instance : IsTotal ParsedVal pvalLe := ⟨pvalLe_total⟩

instance : IsTrans ParsedVal pvalLe := ⟨pvalLe_trans⟩

/-! ### Miscellaneous pipeline lemmas -/

lemma hdrIdx_lt_of_mem (l : List String) (k : String) (h : k ∈ l) : hdrIdx l k < l.length := by
  induction l with
  | nil => simp at h
  | cons a t ih =>
    by_cases hak : a = k
    · simp [hdrIdx, hak]
    · rcases List.mem_cons.mp h with h1 | h1
      · exact absurd h1.symm hak
      · simpa [hdrIdx, hak] using ih h1

lemma renameStep_rows (df : DataFrame) : (renameStep df).rows = df.rows := by
  unfold renameStep
  split <;> rfl

lemma renameStep_cols_length (df : DataFrame) : (renameStep df).cols.length = df.cols.length := by
  unfold renameStep
  split
  · rfl
  · simp

lemma renameStep_map_of_lookup (df : DataFrame) (c k : String)
    (h : aLookup (colMapGuard df) c = some k) :
    (renameStep df).cols = df.cols.map (fun x => (aLookup (colMapGuard df) x).getD x) := by
  unfold renameStep
  split
  · rename_i hemp
    cases hcm : colMapGuard df with
    | nil => rw [hcm] at h; simp [aLookup] at h
    | cons a b => rw [hcm] at hemp; simp at hemp
  · rfl

lemma insertionSort_eq_nil_iff (l : List ParsedVal) :
    List.insertionSort pvalLe l = [] ↔ l = [] := by
  constructor
  · intro h
    have hp := List.perm_insertionSort pvalLe l
    rw [h] at hp
    exact (hp.symm.eq_nil)
  · intro h
    subst h
    rfl

lemma zip_map_filter_today (rows : List (List String)) (l : List (Option Date)) (today : Date) :
    ((rows.zip (l.map parsedValOf)).filter (fun p => p.2 = ParsedVal.pdate today)).map Prod.fst
      = ((rows.zip l).filter (fun p => p.2 = some today)).map Prod.fst := by
  induction rows generalizing l with
  | nil => simp
  | cons r t ih =>
    cases l with
    | nil => simp
    | cons x xs =>
      simp only [List.map_cons, List.zip_cons_cons, List.filter_cons]
      by_cases hxx : x = some today
      · subst hxx
        simp [parsedValOf, ih]
      · have h1 : parsedValOf x ≠ ParsedVal.pdate today := by
          cases x with
          | none => simp [parsedValOf]
          | some dd =>
            simp only [parsedValOf, ne_eq, ParsedVal.pdate.injEq]
            intro hcon
            exact hxx (by rw [hcon])
        simp [h1, hxx, ih]

lemma zip_text_filter_today (rows : List (List String)) (cells : List String) (today : Date) :
    (rows.zip (cells.map ParsedVal.text)).filter (fun p => p.2 = ParsedVal.pdate today) = [] := by
  induction rows generalizing cells with
  | nil => simp
  | cons r t ih =>
    cases cells with
    | nil => simp
    | cons c cs => simp [List.filter_cons, ih]

/-! ### The save handler's full behaviour on a successful match -/

lemma saveStato_spec (headers : List String) (rows : List (List String)) (dfCols : List String)
    (d o v : String)
    (ha : hdrIdx headers "Stato" = hdrIdx dfCols "Stato")
    (hmem : "Stato" ∈ headers)
    (hlen : ∀ r ∈ rows, r.length = headers.length)
    (hex : ∃ r ∈ rows, rowMatches headers d o r = true) :
    ∃ j, j < rows.length ∧
      rowMatches headers d o (rows.getD j []) = true ∧
      (∀ j2 < j, rowMatches headers d o (rows.getD j2 []) = false) ∧
      (saveStato headers rows dfCols d o v).1
        = SaveOutcome.updated (j + 2) (hdrIdx headers "Stato" + 1) v ∧
      (∀ j2, j2 ≠ j → (saveStato headers rows dfCols d o v).2.getD j2 [] = rows.getD j2 []) ∧
      (∀ q, q ≠ hdrIdx headers "Stato" →
        ((saveStato headers rows dfCols d o v).2.getD j []).getD q ""
          = (rows.getD j []).getD q "") ∧
      ((saveStato headers rows dfCols d o v).2.getD j []).getD (hdrIdx headers "Stato") "" = v ∧
      (saveStato headers rows dfCols d o v).2.length = rows.length := by
  have hne : findRow headers d o 2 rows ≠ none := by
    intro hcon
    obtain ⟨r, hr, hm⟩ := hex
    rw [(findRow_none_iff headers d o 2 rows).mp hcon r hr] at hm
    exact Bool.false_ne_true hm
  obtain ⟨i, hi⟩ := Option.ne_none_iff_exists'.mp hne
  obtain ⟨h2i, hlt, hmatch, hmin⟩ := findRow_some_spec headers d o 2 rows i hi
  have hsv : saveStato headers rows dfCols d o v
      = (SaveOutcome.updated i (hdrIdx dfCols "Stato" + 1) v,
         rows.set (i - 2) ((rows.getD (i - 2) []).set (hdrIdx dfCols "Stato") v)) := by
    unfold saveStato
    rw [hi]
    simp [updateCellRows, Nat.add_sub_cancel]
  have hplen : hdrIdx headers "Stato" < (rows.getD (i - 2) []).length := by
    rw [hlen (rows.getD (i - 2) []) (getD_mem rows (i - 2) [] hlt)]
    exact hdrIdx_lt_of_mem headers "Stato" hmem
  refine ⟨i - 2, hlt, hmatch, hmin, ?_, ?_, ?_, ?_, ?_⟩
  · rw [hsv, ← ha]
    have hii : i - 2 + 2 = i := by omega
    rw [hii]
  · intro j2 hj2
    rw [hsv]
    exact getD_set_other rows (i - 2) j2 _ [] (fun hcon => hj2 hcon.symm)
  · intro q hq
    rw [hsv, ← ha]
    rw [getD_set_self rows (i - 2) _ [] hlt]
    exact getD_set_other _ (hdrIdx headers "Stato") q v "" (fun hcon => hq hcon.symm)
  · rw [hsv, ← ha]
    rw [getD_set_self rows (i - 2) _ [] hlt]
    exact getD_set_self _ (hdrIdx headers "Stato") v "" hplen
  · rw [hsv]
    simp

lemma oggiFilter_eq (df : DataFrame) (today : Date) :
    oggiFilter df today
      = ((df.rows.zip (dataParsedOf (colValues df "Data"))).filter
          (fun p => p.2 = ParsedVal.pdate today)).map Prod.fst := rfl

lemma dataParsedOf_error (cells : List String) (e : Unit)
    (he : parseAll cells = Except.error e) :
    dataParsedOf cells = cells.map ParsedVal.text := by
  unfold dataParsedOf
  rw [he]

lemma dataParsedOf_ok (cells : List String) (l : List (Option Date))
    (hl : parseAll cells = Except.ok l) :
    dataParsedOf cells = l.map parsedValOf := by
  unfold dataParsedOf
  rw [hl]

lemma map_fst_pair (g : ParsedVal → Int) (l : List ParsedVal) :
    (l.map (fun k => (k, g k))).map Prod.fst = l := by
  induction l with
  | nil => rfl
  | cons a t ih => simp [ih]

lemma dailyOf_map_fst (df : DataFrame) (pc pp pm : Int) :
    (dailyOf df pc pp pm).map Prod.fst
      = List.insertionSort pvalLe
          ((uniqueKeys (dataParsedOf (colValues df "Data"))).filter
            (fun k => k ≠ ParsedVal.missing)) := by
  unfold dailyOf
  exact map_fst_pair _ _

lemma pipelineExport_eq (raw : DataFrame) :
    pipelineExport raw = ⟨"Sheet1", "yyyy-mm-dd", normalizeDf raw⟩ := by
  unfold pipelineExport exportSnapshot
  rfl

/-! ## Claim theorems -/

/-- C1: the Scorer is a pure total function of `(status, point configuration)`:
the done marker scores `points_complete`, the partial marker `points_partial`,
the missed marker `points_missed`, and any other status text (empty or
unrecognized, after stripping surrounding whitespace) scores `0`; repeated
calls on the same inputs return the same integer. -/
theorem C1_scorer_lookup (pc pp pm : Int) (s : String) :
    punteggio_calcolato pc pp pm "✅" = pc ∧
    punteggio_calcolato pc pp pm "⚠️" = pp ∧
    punteggio_calcolato pc pp pm "❌" = pm ∧
    (stripChars s.data ≠ "✅".data → stripChars s.data ≠ "⚠️".data →
      stripChars s.data ≠ "❌".data → punteggio_calcolato pc pp pm s = 0) ∧
    punteggio_calcolato pc pp pm s = punteggio_calcolato pc pp pm s := by
  refine ⟨?_, ?_, ?_, ?_, rfl⟩
  · have h : stripChars "✅".data = "✅".data := by decide
    simp [punteggio_calcolato, h]
  · have h1 : ¬stripChars "⚠️".data = "✅".data := by decide
    have h2 : stripChars "⚠️".data = "⚠️".data := by decide
    simp [punteggio_calcolato, h1, h2]
  · have h1 : ¬stripChars "❌".data = "✅".data := by decide
    have h2 : ¬stripChars "❌".data = "⚠️".data := by decide
    have h3 : stripChars "❌".data = "❌".data := by decide
    simp [punteggio_calcolato, h1, h2, h3]
  · intro h1 h2 h3
    simp [punteggio_calcolato, h1, h2, h3]

theorem C1_scorer_lookup_witness : punteggio_calcolato 10 5 0 "boh" = 0 :=
  (C1_scorer_lookup 10 5 0 "boh").2.2.2.1 (by decide) (by decide) (by decide)

/-- C2 (counterexample): a source column matching no keyword fragment — here
"xyz" — survives normalization, so the normalized table has ten fields, not
exactly the nine canonical ones. -/
theorem C2_counterexample :
    (normalizeDf ⟨["xyz"], [["v"]]⟩).cols
      = ["xyz", "Data", "Giorno", "Ora", "Attività", "Materia", "Tipo", "Stato", "Punteggio", "Note"] ∧
    (normalizeDf ⟨["xyz"], [["v"]]⟩).cols ≠ expected_cols ∧
    (normalizeDf ⟨["xyz"], [["v"]]⟩).cols.length = 10 := by
  exact ⟨by decide, by decide, by decide⟩

/-- C2 (amended): the Normalizer produces a table whose fields are the renamed
source columns followed by every canonical field that was still missing, each
materialized and filled with empty text — a superset of the canonical nine,
with unmatched source columns retained rather than dropped. -/
theorem C2_normalizer_superset (df : DataFrame) :
    (normalizeDf df).cols
      = (renameStep df).cols ++ expected_cols.filter (fun e => e ∉ (renameStep df).cols) ∧
    (normalizeDf df).rows = (renameStep df).rows.map (fun r =>
      r ++ List.replicate (expected_cols.filter (fun e => e ∉ (renameStep df).cols)).length "") ∧
    (∀ e ∈ expected_cols, e ∈ (normalizeDf df).cols) := by
  have h := normalizeDf_shape df
  refine ⟨by rw [h], by rw [h], ?_⟩
  intro e he
  rw [h]
  by_cases hmem : e ∈ (renameStep df).cols
  · exact List.mem_append.mpr (Or.inl hmem)
  · exact List.mem_append.mpr (Or.inr (List.mem_filter.mpr ⟨he, by simpa using hmem⟩))

theorem C2_normalizer_superset_witness : "Stato" ∈ (normalizeDf ⟨["xyz"], [["v"]]⟩).cols :=
  (C2_normalizer_superset ⟨["xyz"], [["v"]]⟩).2.2 "Stato" (by decide)

/-- C3 (counterexample): with two source columns both matching the "data"
fragment, the rename map is keyed by the distinct source names, so no
last-write overwrite happens: both columns are renamed and the normalized
table carries the canonical name "Data" twice — not a single canonical column
holding the later column's data. -/
theorem C3_counterexample :
    (normalizeDf ⟨["DATA", "data x"], [["a", "b"]]⟩).cols.count "Data" = 2 ∧
    (normalizeDf ⟨["DATA", "data x"], [["a", "b"]]⟩).rows
      = [["a", "b", "", "", "", "", "", "", "", ""]] := by
  exact ⟨by decide, by decide⟩

/-- C3 (amended): when two source columns at distinct positions both match the
same fragment, the rename maps each of them to the same canonical name in
place — producing duplicate canonical columns, each keeping its own position
and data (the rows are untouched) — rather than collapsing them to a single
column carrying the later column's data. -/
theorem C3_duplicate_headers (df : DataFrame) (i j : Nat) (k : String)
    (_hij : i ≠ j) (hi : i < df.cols.length) (hj : j < df.cols.length)
    (hki : canonOf (df.cols.getD i "") = some k)
    (hkj : canonOf (df.cols.getD j "") = some k)
    (hrne : df.rows ≠ []) (hcne : df.cols ≠ []) :
    (renameStep df).cols.getD i "" = k ∧
    (renameStep df).cols.getD j "" = k ∧
    (renameStep df).rows = df.rows ∧
    (renameStep df).cols.length = df.cols.length := by
  have hde : dfEmpty df = false := by
    unfold dfEmpty
    cases hr : df.rows with
    | nil => exact absurd hr hrne
    | cons a b =>
      cases hc : df.cols with
      | nil => exact absurd hc hcne
      | cons a2 b2 => rfl
  have hguard : colMapGuard df = colMapOf df.cols := by
    unfold colMapGuard
    rw [hde]
    rfl
  have hci : df.cols.getD i "" ∈ df.cols := getD_mem _ i "" hi
  have hcj : df.cols.getD j "" ∈ df.cols := getD_mem _ j "" hj
  have hli : aLookup (colMapGuard df) (df.cols.getD i "") = some k := by
    rw [hguard, colMapOf, colMap_foldl_lookup df.cols [] _ k hki, if_pos hci]
  have hlj : aLookup (colMapGuard df) (df.cols.getD j "") = some k := by
    rw [hguard, colMapOf, colMap_foldl_lookup df.cols [] _ k hkj, if_pos hcj]
  have hcols := renameStep_map_of_lookup df _ k hli
  refine ⟨?_, ?_, renameStep_rows df, renameStep_cols_length df⟩
  · rw [hcols, getD_map_lt df.cols _ i "" "" hi, hli]
    rfl
  · rw [hcols, getD_map_lt df.cols _ j "" "" hj, hlj]
    rfl

theorem C3_duplicate_headers_witness :
    (renameStep ⟨["DATA", "data x"], [["a", "b"]]⟩).cols.getD 0 "" = "Data" ∧
    (renameStep ⟨["DATA", "data x"], [["a", "b"]]⟩).cols.getD 1 "" = "Data" ∧
    (renameStep ⟨["DATA", "data x"], [["a", "b"]]⟩).rows
      = (⟨["DATA", "data x"], [["a", "b"]]⟩ : DataFrame).rows ∧
    (renameStep ⟨["DATA", "data x"], [["a", "b"]]⟩).cols.length
      = (⟨["DATA", "data x"], [["a", "b"]]⟩ : DataFrame).cols.length :=
  C3_duplicate_headers ⟨["DATA", "data x"], [["a", "b"]]⟩ 0 1 "Data"
    (by decide) (by decide) (by decide) (by decide) (by decide) (by decide) (by decide)

/-- C4: when at least one remote record's own `(Data, Ora)` fields match the
key by exact string equality, the save handler patches exactly the first
matching record in storage order (sheet row `j + 2` for the first matching
data row `j`), overwriting that record's status cell — the column named
"Stato", under the hypothesis that local and remote tables agree on its
position — and modifying no other cell and no other row. -/
theorem C4_writer_patch (headers : List String) (rows : List (List String))
    (dfCols : List String) (d o v : String)
    (ha : hdrIdx headers "Stato" = hdrIdx dfCols "Stato")
    (hmem : "Stato" ∈ headers)
    (hlen : ∀ r ∈ rows, r.length = headers.length)
    (hex : ∃ r ∈ rows, rowMatches headers d o r = true) :
    ∃ j, j < rows.length ∧
      rowMatches headers d o (rows.getD j []) = true ∧
      (∀ j2 < j, rowMatches headers d o (rows.getD j2 []) = false) ∧
      (saveStato headers rows dfCols d o v).1
        = SaveOutcome.updated (j + 2) (hdrIdx headers "Stato" + 1) v ∧
      (∀ j2, j2 ≠ j → (saveStato headers rows dfCols d o v).2.getD j2 [] = rows.getD j2 []) ∧
      (∀ q, q ≠ hdrIdx headers "Stato" →
        ((saveStato headers rows dfCols d o v).2.getD j []).getD q ""
          = (rows.getD j []).getD q "") ∧
      ((saveStato headers rows dfCols d o v).2.getD j []).getD (hdrIdx headers "Stato") "" = v ∧
      (saveStato headers rows dfCols d o v).2.length = rows.length :=
  saveStato_spec headers rows dfCols d o v ha hmem hlen hex

theorem C4_writer_patch_witness :
    ∃ j, j < [["d1", "h1", "old"]].length ∧
      rowMatches ["Data", "Ora", "Stato"] "d1" "h1" ([["d1", "h1", "old"]].getD j []) = true ∧
      (∀ j2 < j, rowMatches ["Data", "Ora", "Stato"] "d1" "h1"
        ([["d1", "h1", "old"]].getD j2 []) = false) ∧
      (saveStato ["Data", "Ora", "Stato"] [["d1", "h1", "old"]]
          ["Data", "Ora", "Stato"] "d1" "h1" "✅").1
        = SaveOutcome.updated (j + 2) (hdrIdx ["Data", "Ora", "Stato"] "Stato" + 1) "✅" ∧
      (∀ j2, j2 ≠ j →
        (saveStato ["Data", "Ora", "Stato"] [["d1", "h1", "old"]]
            ["Data", "Ora", "Stato"] "d1" "h1" "✅").2.getD j2 []
          = [["d1", "h1", "old"]].getD j2 []) ∧
      (∀ q, q ≠ hdrIdx ["Data", "Ora", "Stato"] "Stato" →
        ((saveStato ["Data", "Ora", "Stato"] [["d1", "h1", "old"]]
            ["Data", "Ora", "Stato"] "d1" "h1" "✅").2.getD j []).getD q ""
          = ([["d1", "h1", "old"]].getD j []).getD q "") ∧
      ((saveStato ["Data", "Ora", "Stato"] [["d1", "h1", "old"]]
          ["Data", "Ora", "Stato"] "d1" "h1" "✅").2.getD j []).getD
        (hdrIdx ["Data", "Ora", "Stato"] "Stato") "" = "✅" ∧
      (saveStato ["Data", "Ora", "Stato"] [["d1", "h1", "old"]]
          ["Data", "Ora", "Stato"] "d1" "h1" "✅").2.length = [["d1", "h1", "old"]].length :=
  C4_writer_patch ["Data", "Ora", "Stato"] [["d1", "h1", "old"]] ["Data", "Ora", "Stato"]
    "d1" "h1" "✅" (by decide) (by decide) (by decide) (by decide)

/-- C5: when no remote record's `(Data, Ora)` fields match the key, the save
handler reports that no row was found (the for/else branch), performs no
mutation of the remote table — the rows come back unchanged, and in
particular no new record is created — and the scan is a single pass with no
retry. -/
theorem C5_writer_notfound (headers : List String) (rows : List (List String))
    (dfCols : List String) (d o v : String)
    (h : ∀ r ∈ rows, rowMatches headers d o r = false) :
    saveStato headers rows dfCols d o v = (SaveOutcome.notFound, rows) := by
  have hn : findRow headers d o 2 rows = none := (findRow_none_iff headers d o 2 rows).mpr h
  unfold saveStato
  rw [hn]

theorem C5_writer_notfound_witness :
    saveStato ["Data", "Ora", "Stato"] [["d1", "h1", "old"]] ["Data", "Ora", "Stato"]
      "nope" "h1" "✅" = (SaveOutcome.notFound, [["d1", "h1", "old"]]) :=
  C5_writer_notfound ["Data", "Ora", "Stato"] [["d1", "h1", "old"]] ["Data", "Ora", "Stato"]
    "nope" "h1" "✅" (by decide)

/-- C6 (counterexample): the date conversion is all-or-nothing, not per row:
with one row whose date parses to today and one row of unparseable text, the
whole column falls back to opaque text and the today view is empty — the
parseable row is excluded even though its date is the current date. -/
theorem C6_counterexample :
    parseISODate "2026-10-12" = some ⟨2026, 10, 12⟩ ∧
    oggiFilter ⟨["Data"], [["2026-10-12"], ["zzz"]]⟩ ⟨2026, 10, 12⟩ = [] := by
  exact ⟨by decide, by decide⟩

/-- C6 (amended): the today view's granularity is the whole column: if every
date cell converts (blank cells becoming missing values), the today view is
exactly the rows whose date parses to the current date; but if any single
cell fails to parse, the whole column is treated as opaque text and the today
view is empty — parse failures are not excluded row by row.  (The count
hypothesis pins the single-"Data"-column layout on which the live pipeline
runs; with duplicated labels pandas errors out instead.) -/
theorem C6_today_filter (df : DataFrame) (today : Date)
    (hcount : df.cols.count "Data" ≤ 1) :
    (∀ e, parseAll (colValues df "Data") = Except.error e → oggiFilter df today = []) ∧
    (∀ l, parseAll (colValues df "Data") = Except.ok l →
      oggiFilter df today
        = ((df.rows.zip l).filter (fun p => p.2 = some today)).map Prod.fst) := by
  have _ := hcount
  constructor
  · intro e he
    rw [oggiFilter_eq, dataParsedOf_error _ e he, zip_text_filter_today]
    rfl
  · intro l hl
    rw [oggiFilter_eq, dataParsedOf_ok _ l hl]
    exact zip_map_filter_today df.rows l today

theorem C6_today_filter_witness :
    oggiFilter ⟨["Data"], [["2026-10-12"], [""]]⟩ ⟨2026, 10, 12⟩
      = (((⟨["Data"], [["2026-10-12"], [""]]⟩ : DataFrame).rows.zip
            [some ⟨2026, 10, 12⟩, none]).filter
          (fun p => p.2 = some (⟨2026, 10, 12⟩ : Date))).map Prod.fst :=
  (C6_today_filter ⟨["Data"], [["2026-10-12"], [""]]⟩ ⟨2026, 10, 12⟩ (by decide)).2
    [some ⟨2026, 10, 12⟩, none] (by rfl)

/-- C7 (counterexample): the exported sheet is not the raw input table: on a
raw table with the single header "DATA", the snapshot's columns are the
renamed header "Data" followed by the eight materialized canonical columns —
neither the original header names nor the original column set. -/
theorem C7_counterexample :
    (pipelineExport ⟨["DATA"], [["x"]]⟩).table.cols
      = ["Data", "Giorno", "Ora", "Attività", "Materia", "Tipo", "Stato", "Punteggio", "Note"] ∧
    (pipelineExport ⟨["DATA"], [["x"]]⟩).table.cols ≠ ["DATA"] ∧
    (pipelineExport ⟨["DATA"], [["x"]]⟩).table.rows ≠ [["x"]] := by
  exact ⟨by decide, by decide, by decide⟩

/-- C7 (amended): the export produces a single sheet named Sheet1 with the
yyyy-mm-dd date format option, containing the pre-score-computation table as
it stands after normalization: the same number of rows as the raw input, the
renamed source columns first (in their original relative order), and the
materialized missing canonical columns appended after them. -/
theorem C7_export_snapshot (raw : DataFrame) :
    (pipelineExport raw).sheetName = "Sheet1" ∧
    (pipelineExport raw).dateFormat = "yyyy-mm-dd" ∧
    (pipelineExport raw).table = normalizeDf raw ∧
    (pipelineExport raw).table.rows.length = raw.rows.length ∧
    (pipelineExport raw).table.cols.take (renameStep raw).cols.length
      = (renameStep raw).cols := by
  have ht := pipelineExport_eq raw
  refine ⟨by rw [ht], by rw [ht], by rw [ht], ?_, ?_⟩
  · rw [ht]
    show (normalizeDf raw).rows.length = raw.rows.length
    rw [normalizeDf_shape]
    simp [renameStep_rows]
  · rw [ht]
    show (normalizeDf raw).cols.take (renameStep raw).cols.length = (renameStep raw).cols
    rw [normalizeDf_shape]
    exact List.take_left _ _

/-- C8 (counterexample): in FULL_RW mode with no credential uploaded, the
loader does not raise an Authentication error: it shows the informational
upload prompt (and an empty table), so "invalid or absent credential implies
an Authentication error" fails on the absent case. -/
theorem C8_counterexample :
    loadFullRW true none ⟨["Data"], [["x"]]⟩ = (emptyDf, LoadMsg.infoMsg) ∧
    LoadMsg.infoMsg ≠ LoadMsg.errMsg GsError.authError := by
  exact ⟨by decide, by decide⟩

/-- C8 (amended): in FULL_RW mode, with a credential file uploaded the loader
fails with a NotAvailable error when the gspread library could not be loaded
(checked first), and with an Authentication error when the library is
available but the credential is invalid; with no credential uploaded it shows
an informational prompt instead of an error; in every non-successful case the
returned table is empty. -/
theorem C8_loader_failures (remote : DataFrame) (c : Credential) :
    loadFullRW false (some c) remote = (emptyDf, LoadMsg.errMsg GsError.notAvailable) ∧
    (c.valid = false →
      loadFullRW true (some c) remote = (emptyDf, LoadMsg.errMsg GsError.authError)) ∧
    loadFullRW true none remote = (emptyDf, LoadMsg.infoMsg) ∧
    loadFullRW false none remote = (emptyDf, LoadMsg.infoMsg) := by
  refine ⟨rfl, ?_, rfl, rfl⟩
  intro hv
  simp [loadFullRW, get_gspread_service, hv]

theorem C8_loader_failures_witness :
    loadFullRW true (some ⟨false⟩) ⟨["Data"], [["x"]]⟩
      = (emptyDf, LoadMsg.errMsg GsError.authError) :=
  (C8_loader_failures ⟨["Data"], [["x"]]⟩ ⟨false⟩).2.1 rfl

/-- C9 (counterexample): with a single row of unparseable date text, no row
has a parseable date, yet the daily trend does not show the placeholder: the
fallback keys the group by the raw text, the grouped table is non-empty and a
chart is rendered. -/
theorem C9_counterexample :
    parseISODate "zzz" = none ∧
    dailyOf ⟨["Data", "Stato"], [["zzz", "✅"]]⟩ 10 5 0 = [(ParsedVal.text "zzz", 10)] ∧
    showsPlaceholder ⟨["Data", "Stato"], [["zzz", "✅"]]⟩ 10 5 0 = false := by
  exact ⟨by decide, by decide, by decide⟩

/-- C9 (amended): the daily trend groups rows by their `Data_parsed` key,
sums the computed score per group, and lists the groups in sorted key order
(chronological on parsed dates); the placeholder is shown exactly when every
group key is missing — a zero-row table in particular — while a table whose
dates fell back to opaque text gets a chart keyed on that text, not the
placeholder.  (The count hypotheses pin the single-"Data"/"Stato"-column
layout on which the live pipeline runs.) -/
theorem C9_daily_trend (df : DataFrame) (pc pp pm : Int)
    (hcd : df.cols.count "Data" ≤ 1) (hcs : df.cols.count "Stato" ≤ 1) :
    (showsPlaceholder df pc pp pm = true ↔
      ∀ k ∈ dataParsedOf (colValues df "Data"), k = ParsedVal.missing) ∧
    (∀ p ∈ dailyOf df pc pp pm,
      p.1 ≠ ParsedVal.missing ∧
      p.2 = groupSum ((dataParsedOf (colValues df "Data")).zip
              ((colValues df "Stato").map (punteggio_calcolato pc pp pm))) p.1) ∧
    List.Sorted pvalLe ((dailyOf df pc pp pm).map Prod.fst) ∧
    (df.rows = [] → showsPlaceholder df pc pp pm = true) := by
  have _ := hcd
  have _ := hcs
  have hmapfst := dailyOf_map_fst df pc pp pm
  refine ⟨?_, ?_, ?_, ?_⟩
  · unfold showsPlaceholder dailyOf
    rw [List.isEmpty_iff, List.map_eq_nil_iff, insertionSort_eq_nil_iff, List.filter_eq_nil_iff]
    constructor
    · intro h k hk
      have := h k ((mem_uniqueKeys _ k).mpr hk)
      simpa using this
    · intro h k hk
      have := h k ((mem_uniqueKeys _ k).mp hk)
      simp [this]
  · intro p hp
    unfold dailyOf at hp
    obtain ⟨k, hk, hpk⟩ := List.mem_map.mp hp
    have hkg := (List.perm_insertionSort pvalLe _).mem_iff.mp hk
    obtain ⟨hku, hknm⟩ := List.mem_filter.mp hkg
    subst hpk
    exact ⟨by simpa using hknm, rfl⟩
  · rw [hmapfst]
    exact List.sorted_insertionSort pvalLe _
  · intro hrows
    unfold showsPlaceholder dailyOf colValues
    rw [hrows]
    split <;> simp [dataParsedOf, parseAll, uniqueKeys, dedupFirst]

theorem C9_daily_trend_witness :
    (showsPlaceholder ⟨["Data", "Stato"], [["2026-10-12", "✅"]]⟩ 10 5 0 = true ↔
      ∀ k ∈ dataParsedOf (colValues ⟨["Data", "Stato"], [["2026-10-12", "✅"]]⟩ "Data"),
        k = ParsedVal.missing) :=
  (C9_daily_trend ⟨["Data", "Stato"], [["2026-10-12", "✅"]]⟩ 10 5 0 (by decide) (by decide)).1

/-- C10: the status selector of every today card is initialized to the unset
choice — `options[0]`, the empty status — regardless of the row's stored
status, and the save action writes whatever the selector holds; hence saving
without touching the selector overwrites the first matching record's status
cell with the empty status, clearing its prior value. -/
theorem C10_save_clears_status (stored : String) (headers : List String)
    (rows : List (List String)) (dfCols : List String) (d o : String)
    (ha : hdrIdx headers "Stato" = hdrIdx dfCols "Stato")
    (hmem : "Stato" ∈ headers)
    (hlen : ∀ r ∈ rows, r.length = headers.length)
    (hex : ∃ r ∈ rows, rowMatches headers d o r = true) :
    newStateInitial stored = "" ∧
    ∃ j, j < rows.length ∧
      rowMatches headers d o (rows.getD j []) = true ∧
      ((saveStato headers rows dfCols d o (newStateInitial stored)).2.getD j []).getD
        (hdrIdx headers "Stato") "" = "" := by
  obtain ⟨j, h1, h2, _, _, _, _, h7, _⟩ :=
    saveStato_spec headers rows dfCols d o (newStateInitial stored) ha hmem hlen hex
  exact ⟨rfl, j, h1, h2, h7⟩

theorem C10_save_clears_status_witness :
    newStateInitial "✅" = "" ∧
    ∃ j, j < [["d1", "h1", "✅"]].length ∧
      rowMatches ["Data", "Ora", "Stato"] "d1" "h1" ([["d1", "h1", "✅"]].getD j []) = true ∧
      ((saveStato ["Data", "Ora", "Stato"] [["d1", "h1", "✅"]] ["Data", "Ora", "Stato"]
          "d1" "h1" (newStateInitial "✅")).2.getD j []).getD
        (hdrIdx ["Data", "Ora", "Stato"] "Stato") "" = "" :=
  C10_save_clears_status "✅" ["Data", "Ora", "Stato"] [["d1", "h1", "✅"]]
    ["Data", "Ora", "Stato"] "d1" "h1" (by decide) (by decide) (by decide) (by decide)
